import Mathlib

/-!
Verification of the price-list ingestion pipeline of the heart_eco
wood-products catalog backend.

Shallow embedding conventions:
* Rust strings are modelled as `List Char`; ASCII-faithful versions of
  `to_uppercase`, `trim`, `split_whitespace` and `str::parse::<i32>` are
  defined below (every string the pipeline compares against is ASCII).
* Rust `i32` values are modelled as `Int`; `str::parse::<i32>` carries the
  explicit range check `-2^31 ≤ v ≤ 2^31 - 1`, matching the overflow
  failure of Rust.
* `BigDecimal` prices are modelled as `Int`: the code only ever constructs
  prices via `BigDecimal::from(i32)`, which is exact, and only compares them
  to zero.
* The database is modelled as the list of SKUs it holds; the seeding
  drivers become explicit folds over the product list, with an environment
  injecting per-record store errors where the code handles them.
-/

namespace HeartEco

/-- Convert a Lean string literal to the `List Char` representation used
throughout the embedding. -/
def str (s : String) : List Char := s.toList

/-- ASCII whitespace test, mirroring the whitespace classes actually present
in the price-list input (`split_whitespace` / `trim` in Rust). -/
def isWS (c : Char) : Bool :=
  c = ' ' || c = '\t' || c = '\n' || c = '\r'

/-- ASCII uppercasing of one character, mirroring `char::to_uppercase` on
the ASCII range used by the price list. -/
def asciiUpper (c : Char) : Char :=
  if 'a' ≤ c ∧ c ≤ 'z' then Char.ofNat (c.toNat - 32) else c

/-- Rust `str::to_uppercase` on an ASCII string. -/
def upperChars (s : List Char) : List Char := s.map asciiUpper

/-- Rust `str::trim`: drop leading and trailing whitespace. -/
def trimChars (s : List Char) : List Char :=
  ((s.dropWhile isWS).reverse.dropWhile isWS).reverse

/-- Accumulator-style worker for `split_whitespace`. -/
def splitWSAux : List Char → List Char → List (List Char)
  | [], acc => if acc = [] then [] else [acc.reverse]
  | c :: cs, acc =>
    if isWS c then
      if acc = [] then splitWSAux cs []
      else acc.reverse :: splitWSAux cs []
    else splitWSAux cs (c :: acc)

/-- Rust `str::split_whitespace` collected into a vector, as the parser does. -/
def splitWhitespace (s : List Char) : List (List Char) := splitWSAux s []

/-- Numeric value of an ASCII digit. -/
def digitVal (c : Char) : Option Nat :=
  if '0' ≤ c ∧ c ≤ '9' then some (c.toNat - '0'.toNat) else none

/-- Left-to-right accumulation of a digit string. -/
def parseDigits : List Char → Nat → Option Nat
  | [], acc => some acc
  | c :: cs, acc =>
    match digitVal c with
    | some d => parseDigits cs (acc * 10 + d)
    | none => none

/-- Rust `str::parse::<i32>`: optional sign, one or more digits, nothing else,
with the i32 range check (out-of-range input fails to parse). -/
def parseI32 (s : List Char) : Option Int :=
  let signed : Int × List Char :=
    match s with
    | '+' :: r => (1, r)
    | '-' :: r => (-1, r)
    | r => (1, r)
  match signed.2 with
  | [] => none
  | rest =>
    match parseDigits rest 0 with
    | none => none
    | some n =>
      let v : Int := signed.1 * (n : Int)
      if -(2 ^ 31) ≤ v ∧ v ≤ 2 ^ 31 - 1 then some v else none

/-- Decimal rendering of an integer, as `format!` renders an `i32`. -/
def intChars (i : Int) : List Char := (Int.repr i).toList

end HeartEco

namespace HeartEco

/-- Rust `PriceListSection` from `src/utils/seeder.rs`. -/
inductive PriceListSection where
  | None
  | HeavyDutyBoxes
  | Pallets
  | AGradeLongTimbers
  | BGradeLongTimbers
  | AGradeShortTimbers
  | BGradeShortTimbers
  | PlanedBothSides
  | PlanedAllRound
  | MachinedTimbers
  | ShortBalticComponents
  | LaminatedBaltic
  | Plywood
deriving DecidableEq, Repr

/-- Rust `WoodType` from `src/models/wood_plank.rs`. -/
inductive WoodType where
  | Baltic
  | Pine
  | Oak
  | Recycled
  | Mixed
deriving DecidableEq, Repr

/-- Rust `ProductCategory` from `src/models/wood_plank.rs`. -/
inductive ProductCategory where
  | HeavyDutyBox
  | Pallet
  | LongTimber
  | ShortTimber
  | PlanedTimber
  | MachinedTimber
  | Component
  | LaminatedTable
  | Plywood
  | Custom
deriving DecidableEq, Repr

/-- Rust `ProductGrade` from `src/models/wood_plank.rs`. -/
inductive ProductGrade where
  | AGrade
  | BGrade
  | Standard
deriving DecidableEq, Repr

/-- Rust `FinishType` from `src/models/wood_plank.rs`. -/
inductive FinishType where
  | Rough
  | PlanedBothSides
  | PlanedAllRound
  | Machined
  | Laminated
  | Raw
deriving DecidableEq, Repr

/-- Rust `WoodPlankError` from `src/models/wood_plank.rs` (each variant carries
its message string). -/
inductive WoodPlankError where
  | InvalidDimensions (msg : List Char)
  | InvalidPrice (msg : List Char)
  | InvalidStock (msg : List Char)
deriving DecidableEq, Repr

/-- Rust `NewWoodPlank` from `src/models/wood_plank.rs`. -/
structure NewWoodPlank where
  sku : List Char
  name : List Char
  category : ProductCategory
  wood_type : WoodType
  grade : ProductGrade
  finish : FinishType
  thickness_mm : Int
  width_mm : Int
  length_mm : Int
  price : Int
  stock_quantity : Int
  unit_of_measure : List Char
  description : Option (List Char)
  image_url : Option (List Char)
deriving DecidableEq, Repr

/-- Rust `NewWoodPlank::validate` from `src/models/wood_plank.rs`. -/
def NewWoodPlank.validate (p : NewWoodPlank) : Except WoodPlankError Unit :=
  if p.length_mm ≤ 0 ∨ p.width_mm ≤ 0 ∨ p.thickness_mm ≤ 0 then
    Except.error (WoodPlankError.InvalidDimensions (str "All dimensions must be positive"))
  else if p.price ≤ 0 then
    Except.error (WoodPlankError.InvalidPrice (str "Price must be positive"))
  else if p.stock_quantity < 0 then
    Except.error (WoodPlankError.InvalidStock (str "Stock quantity cannot be negative"))
  else
    Except.ok ()

/-- Whether `validate` succeeds (`validate(..).is_ok()`). -/
def NewWoodPlank.validOk (p : NewWoodPlank) : Bool :=
  match p.validate with
  | Except.ok _ => true
  | Except.error _ => false

/-- The category short code table inside `NewWoodPlank::generate_sku`. -/
def categoryCode : ProductCategory → List Char
  | ProductCategory.HeavyDutyBox => str "HDB"
  | ProductCategory.Pallet => str "PAL"
  | ProductCategory.LongTimber => str "LT"
  | ProductCategory.ShortTimber => str "ST"
  | ProductCategory.PlanedTimber => str "PT"
  | ProductCategory.MachinedTimber => str "MT"
  | ProductCategory.Component => str "COMP"
  | ProductCategory.LaminatedTable => str "LAM"
  | ProductCategory.Plywood => str "PLY"
  | ProductCategory.Custom => str "CUST"

/-- The grade short code table inside `NewWoodPlank::generate_sku`. -/
def gradeCode : ProductGrade → List Char
  | ProductGrade.AGrade => str "A"
  | ProductGrade.BGrade => str "B"
  | ProductGrade.Standard => str "S"

/-- Rust `NewWoodPlank::generate_sku` from `src/models/wood_plank.rs`: return the
existing SKU when non-empty, else `"<CAT>-<GRADE>-<t>x<w>x<l>"`. -/
def NewWoodPlank.generate_sku (p : NewWoodPlank) : List Char :=
  if p.sku ≠ [] then p.sku
  else
    categoryCode p.category ++ str "-" ++ gradeCode p.grade ++ str "-" ++
      intChars p.thickness_mm ++ str "x" ++ intChars p.width_mm ++ str "x" ++
      intChars p.length_mm

end HeartEco

namespace HeartEco

/-- Rust `identify_section` from `src/utils/seeder.rs`: uppercase the line and
match it exactly against the fixed header strings. -/
def identify_section (line : List Char) : Option PriceListSection :=
  if upperChars line = str "HEAVY DUTY WOODEN BOXES" then some PriceListSection.HeavyDutyBoxes
  else if upperChars line = str "PALLETS" then some PriceListSection.Pallets
  else if upperChars line = str "A GRADE LONG TIMBERS" then some PriceListSection.AGradeLongTimbers
  else if upperChars line = str "B GRADE LONG TIMBERS" then some PriceListSection.BGradeLongTimbers
  else if upperChars line = str "A GRADE SHORT TIMBERS" then some PriceListSection.AGradeShortTimbers
  else if upperChars line = str "B GRADE SHORT TIMBERS" then some PriceListSection.BGradeShortTimbers
  else if upperChars line = str "PLANED BOTH SIDES" then some PriceListSection.PlanedBothSides
  else if upperChars line = str "PLANED ALL ROUND" then some PriceListSection.PlanedAllRound
  else if upperChars line = str "MACHINED TIMBERS" then some PriceListSection.MachinedTimbers
  else if upperChars line = str "SHORT BALTIC COMPONENTS" then some PriceListSection.ShortBalticComponents
  else if upperChars line = str "LAMINATED BALTIC TABLE AND SHELVES TO ORDER" then some PriceListSection.LaminatedBaltic
  else if upperChars line = str "INT/EXTERIOR PLYWOOD" ∨ upperChars line = str "INTERIOR PLYWOOD" then some PriceListSection.Plywood
  else none

/-- Rust `section_to_category_grade` from `src/utils/seeder.rs`. -/
def section_to_category_grade : PriceListSection → ProductCategory × ProductGrade
  | PriceListSection.HeavyDutyBoxes => (ProductCategory.HeavyDutyBox, ProductGrade.Standard)
  | PriceListSection.Pallets => (ProductCategory.Pallet, ProductGrade.Standard)
  | PriceListSection.AGradeLongTimbers => (ProductCategory.LongTimber, ProductGrade.AGrade)
  | PriceListSection.BGradeLongTimbers => (ProductCategory.LongTimber, ProductGrade.BGrade)
  | PriceListSection.AGradeShortTimbers => (ProductCategory.ShortTimber, ProductGrade.AGrade)
  | PriceListSection.BGradeShortTimbers => (ProductCategory.ShortTimber, ProductGrade.BGrade)
  | PriceListSection.PlanedBothSides => (ProductCategory.PlanedTimber, ProductGrade.Standard)
  | PriceListSection.PlanedAllRound => (ProductCategory.PlanedTimber, ProductGrade.Standard)
  | PriceListSection.MachinedTimbers => (ProductCategory.MachinedTimber, ProductGrade.Standard)
  | PriceListSection.ShortBalticComponents => (ProductCategory.Component, ProductGrade.Standard)
  | PriceListSection.LaminatedBaltic => (ProductCategory.LaminatedTable, ProductGrade.Standard)
  | PriceListSection.Plywood => (ProductCategory.Plywood, ProductGrade.Standard)
  | PriceListSection.None => (ProductCategory.Custom, ProductGrade.Standard)

/-- Rust `identify_finish_type` from `src/utils/seeder.rs`. -/
def identify_finish_type (sec : PriceListSection) (parts : List (List Char)) : FinishType :=
  match sec with
  | PriceListSection.PlanedBothSides => FinishType.PlanedBothSides
  | PriceListSection.PlanedAllRound => FinishType.PlanedAllRound
  | PriceListSection.MachinedTimbers => FinishType.Machined
  | PriceListSection.LaminatedBaltic => FinishType.Laminated
  | _ => if str "PAR" ∈ parts then FinishType.PlanedAllRound else FinishType.Rough

/-- Rust `identify_wood_type` from `src/utils/seeder.rs`. -/
def identify_wood_type (parts : List (List Char)) : WoodType :=
  if str "BALTIC" ∈ parts then WoodType.Baltic
  else if str "PINE" ∈ parts then WoodType.Pine
  else if str "OAK" ∈ parts then WoodType.Oak
  else WoodType.Mixed

/-- Rust `wood_type_str` from `src/utils/seeder.rs`. -/
def wood_type_str : WoodType → List Char
  | WoodType.Baltic => str "Baltic"
  | WoodType.Pine => str "Pine"
  | WoodType.Oak => str "Oak"
  | WoodType.Recycled => str "Recycled"
  | WoodType.Mixed => str "Mixed"

/-- One token of `extract_price`: starts with `R` and the rest parses as
an `i32`. -/
def priceOfToken (t : List Char) : Option Int :=
  match t with
  | 'R' :: rest => parseI32 rest
  | _ => none

/-- Scan a token list and return the value of the first price token. -/
def firstPrice : List (List Char) → Option Int
  | [] => none
  | t :: ts =>
    match priceOfToken t with
    | some v => some v
    | none => firstPrice ts

/-- Rust `extract_price` from `src/utils/seeder.rs`: prefer the last token, then
scan all tokens from the end for the first `R<i32>` token. -/
def extract_price (parts : List (List Char)) : Option Int :=
  match parts.getLast? with
  | some last =>
    match priceOfToken last with
    | some v => some v
    | none => firstPrice parts.reverse
  | none => firstPrice parts.reverse

/-- Rust `parse_product_line` from `src/utils/seeder.rs`. -/
def parse_product_line (line : List Char) (sec : PriceListSection) : Option NewWoodPlank :=
  if ¬ ('X' ∈ line) ∧ ¬ ('x' ∈ line) then none
  else
    let parts := splitWhitespace line
    if 7 ≤ parts.length then
      match parseI32 (parts.getD 0 []), parseI32 (parts.getD 2 []), parseI32 (parts.getD 4 []) with
      | some thickness, some width, some length =>
        let wood_type := identify_wood_type parts
        match extract_price parts with
        | some price =>
          let name := intChars thickness ++ str " x " ++ intChars width ++ str " x " ++
            intChars length ++ str " " ++ wood_type_str wood_type
          let cg := section_to_category_grade sec
          let finish := identify_finish_type sec parts
          some {
            sku := []
            name := name
            category := cg.1
            wood_type := wood_type
            grade := cg.2
            finish := finish
            thickness_mm := thickness
            width_mm := width
            length_mm := length
            price := price
            stock_quantity := 10
            unit_of_measure := str "EA"
            description := some line
            image_url := none
          }
        | none => none
      | _, _, _ => none
    else none

/-- One step of the `parse_price_list` loop from `src/utils/seeder.rs`:
trim the line, skip if empty, switch section on a header, otherwise parse a
product when a section is active. State is (current section, products so far). -/
def processLine (st : PriceListSection × List NewWoodPlank) (rawLine : List Char) :
    PriceListSection × List NewWoodPlank :=
  let line := trimChars rawLine
  if line = [] then st
  else
    match identify_section line with
    | some sec => (sec, st.2)
    | none =>
      if st.1 ≠ PriceListSection.None then
        match parse_product_line line st.1 with
        | some product => (st.1, st.2 ++ [product])
        | none => st
      else st

/-- Rust `parse_price_list` from `src/utils/seeder.rs`, over an already-read list
of lines (the line reader is I/O and out of the embedding). -/
def parse_price_list (lines : List (List Char)) : List NewWoodPlank :=
  (lines.foldl processLine (PriceListSection.None, [])).2

end HeartEco

namespace HeartEco

/-- Result of one run of the batch-import entry point (`src/bin/seed.rs`):
success and failure counters, the final store contents (modelled as the list
of SKUs the `wood_planks` table holds), and the trace of records actually
passed to the INSERT statement, in order. -/
structure DriverResult where
  success : Nat
  failure : Nat
  store : List (List Char)
  inserted : List NewWoodPlank
deriving DecidableEq, Repr

/-- Per-record store-error schedule: for each record position, whether the
existence check errors and whether the insert errors. Positions beyond the
list are error-free. -/
def ErrSchedule := List (Bool × Bool)

/-- The SKU the driver uses for a record: `generate_sku` when the record
has an empty SKU, the existing SKU otherwise (`src/bin/seed.rs`). -/
def skuOf (p : NewWoodPlank) : List Char :=
  if p.sku = [] then p.generate_sku else p.sku

/-- The per-record loop of `main` in `src/bin/seed.rs`: compute the SKU
(generated when empty), validate, run the existence check (counting a store
error as a failure and skipping), count an existing SKU as a success, else
insert (counting an insert error as a failure). The store is the set of SKUs;
`env` injects the store errors the code handles. -/
def runSeed : ErrSchedule → List (List Char) → List NewWoodPlank → DriverResult
  | _, store, [] => ⟨0, 0, store, []⟩
  | env, store, p :: rest =>
    let eErr := (env.headD (false, false)).1
    let iErr := (env.headD (false, false)).2
    let env' := env.tail
    let sku := skuOf p
    if ¬ p.validOk then
      let r := runSeed env' store rest
      ⟨r.success, r.failure + 1, r.store, r.inserted⟩
    else if eErr then
      let r := runSeed env' store rest
      ⟨r.success, r.failure + 1, r.store, r.inserted⟩
    else if sku ∈ store then
      let r := runSeed env' store rest
      ⟨r.success + 1, r.failure, r.store, r.inserted⟩
    else if iErr then
      let r := runSeed env' store rest
      ⟨r.success, r.failure + 1, r.store, r.inserted⟩
    else
      let r := runSeed env' (store ++ [sku]) rest
      ⟨r.success + 1, r.failure, r.store, { p with sku := sku } :: r.inserted⟩

/-- Result of `seed_database` in `src/utils/seeder.rs`: whether the run was
aborted by a store error (the `?` operator), the final store, and the trace
of records passed to INSERT, in order. -/
structure SeedDbResult where
  aborted : Bool
  store : List (List Char)
  inserted : List NewWoodPlank
deriving DecidableEq, Repr

/-- The per-record loop of `seed_database` in `src/utils/seeder.rs`:
generate the SKU, run the existence check (a store error aborts the whole
batch via `?`), skip existing SKUs, validate the record with its SKU
attached (an invalid record is skipped), then insert (a store error aborts). -/
def seedDatabase : ErrSchedule → List (List Char) → List NewWoodPlank → SeedDbResult
  | _, store, [] => ⟨false, store, []⟩
  | env, store, p :: rest =>
    let eErr := (env.headD (false, false)).1
    let iErr := (env.headD (false, false)).2
    let env' := env.tail
    let sku := p.generate_sku
    if eErr then ⟨true, store, []⟩
    else if sku ∈ store then seedDatabase env' store rest
    else if ¬ ({ p with sku := sku } : NewWoodPlank).validOk then seedDatabase env' store rest
    else if iErr then ⟨true, store, []⟩
    else
      let r := seedDatabase env' (store ++ [sku]) rest
      ⟨r.aborted, r.store, { p with sku := sku } :: r.inserted⟩

/-- Modelled from the spec (§6 literal table): the canonical header strings
of each section, as a lookup used only to compare against the code
function `identify_section`. Both Plywood variants are canonical. -/
def specHeaders : PriceListSection → List (List Char)
  | PriceListSection.HeavyDutyBoxes => [str "HEAVY DUTY WOODEN BOXES"]
  | PriceListSection.Pallets => [str "PALLETS"]
  | PriceListSection.AGradeLongTimbers => [str "A GRADE LONG TIMBERS"]
  | PriceListSection.BGradeLongTimbers => [str "B GRADE LONG TIMBERS"]
  | PriceListSection.AGradeShortTimbers => [str "A GRADE SHORT TIMBERS"]
  | PriceListSection.BGradeShortTimbers => [str "B GRADE SHORT TIMBERS"]
  | PriceListSection.PlanedBothSides => [str "PLANED BOTH SIDES"]
  | PriceListSection.PlanedAllRound => [str "PLANED ALL ROUND"]
  | PriceListSection.MachinedTimbers => [str "MACHINED TIMBERS"]
  | PriceListSection.ShortBalticComponents => [str "SHORT BALTIC COMPONENTS"]
  | PriceListSection.LaminatedBaltic => [str "LAMINATED BALTIC TABLE AND SHELVES TO ORDER"]
  | PriceListSection.Plywood => [str "INT/EXTERIOR PLYWOOD", str "INTERIOR PLYWOOD"]
  | PriceListSection.None => []

end HeartEco

namespace HeartEco

/-- A record accepted by `validate` has positive dimensions, positive price
and non-negative stock. -/
theorem validOk_pos (p : NewWoodPlank) (h : p.validOk = true) :
    0 < p.thickness_mm ∧ 0 < p.width_mm ∧ 0 < p.length_mm ∧
      0 < p.price ∧ 0 ≤ p.stock_quantity := by
  unfold NewWoodPlank.validOk NewWoodPlank.validate at h
  split_ifs at h with h1 h2 h3
  all_goals try simp at h
  push_neg at h1
  exact ⟨by omega, by omega, by omega, by omega, by omega⟩

end HeartEco

namespace HeartEco

/-- C3: given section `AGradeLongTimbers` and the line
`"23 X 100 X 2500 BALTIC EA R40"`, `parse_product_line` returns a candidate
record with thickness 23, width 100, length 2500, wood type Baltic, category
LongTimber, grade AGrade, finish Rough and price 40. -/
theorem C3_parse_example :
    parse_product_line (str "23 X 100 X 2500 BALTIC EA R40")
        PriceListSection.AGradeLongTimbers =
      some {
        sku := []
        name := str "23 x 100 x 2500 Baltic"
        category := ProductCategory.LongTimber
        wood_type := WoodType.Baltic
        grade := ProductGrade.AGrade
        finish := FinishType.Rough
        thickness_mm := 23
        width_mm := 100
        length_mm := 2500
        price := 40
        stock_quantity := 10
        unit_of_measure := str "EA"
        description := some (str "23 X 100 X 2500 BALTIC EA R40")
        image_url := none
      } := by
  decide

/-- C6: `identify_finish_type` returns PlanedAllRound for the PlanedAllRound
section whatever the tokens are, and for every section outside the four
directly-mapped ones it returns PlanedAllRound exactly when a `PAR` token is
present and Rough otherwise. -/
theorem C6_finish_resolution (parts : List (List Char)) :
    identify_finish_type PriceListSection.PlanedAllRound parts =
      FinishType.PlanedAllRound ∧
    ∀ sec : PriceListSection,
      sec ≠ PriceListSection.PlanedBothSides →
      sec ≠ PriceListSection.PlanedAllRound →
      sec ≠ PriceListSection.MachinedTimbers →
      sec ≠ PriceListSection.LaminatedBaltic →
      identify_finish_type sec parts =
        (if str "PAR" ∈ parts then FinishType.PlanedAllRound else FinishType.Rough) := by
  refine ⟨rfl, ?_⟩
  intro sec h1 h2 h3 h4
  cases sec <;> first | rfl | simp_all

/-- Witness for C6 at a concrete section and token list. -/
theorem C6_finish_resolution_witness :
    identify_finish_type PriceListSection.Pallets [str "PAR"] =
      FinishType.PlanedAllRound := by
  have h := (C6_finish_resolution [str "PAR"]).2 PriceListSection.Pallets
    (by decide) (by decide) (by decide) (by decide)
  rw [h]
  decide

/-- C7: on a record with an empty SKU field, `generate_sku` equals the fixed
formula `<CategoryCode>-<GradeCode>-<t>x<w>x<l>` over the code tables, and it
depends only on (category, grade, thickness, width, length): two empty-SKU
records agreeing on those five fields (so in particular records differing
only in wood type or finish) get the same SKU. -/
theorem C7_sku_pure (p q : NewWoodPlank) (hp : p.sku = []) :
    p.generate_sku =
      categoryCode p.category ++ str "-" ++ gradeCode p.grade ++ str "-" ++
        intChars p.thickness_mm ++ str "x" ++ intChars p.width_mm ++ str "x" ++
        intChars p.length_mm ∧
    (q.sku = [] → p.category = q.category → p.grade = q.grade →
      p.thickness_mm = q.thickness_mm → p.width_mm = q.width_mm →
      p.length_mm = q.length_mm → p.generate_sku = q.generate_sku) := by
  constructor
  · unfold NewWoodPlank.generate_sku
    simp [hp]
  · intro hq h1 h2 h3 h4 h5
    unfold NewWoodPlank.generate_sku
    simp [hp, hq, h1, h2, h3, h4, h5]

/-- Witness for C7: two concrete records differing only in wood type and
finish receive the same generated SKU. -/
theorem C7_sku_pure_witness :
    ({ sku := [], name := str "a", category := ProductCategory.LongTimber,
       wood_type := WoodType.Baltic, grade := ProductGrade.AGrade,
       finish := FinishType.Rough, thickness_mm := 23, width_mm := 100,
       length_mm := 2500, price := 40, stock_quantity := 10,
       unit_of_measure := str "EA", description := none,
       image_url := none } : NewWoodPlank).generate_sku =
    ({ sku := [], name := str "a", category := ProductCategory.LongTimber,
       wood_type := WoodType.Oak, grade := ProductGrade.AGrade,
       finish := FinishType.PlanedAllRound, thickness_mm := 23, width_mm := 100,
       length_mm := 2500, price := 40, stock_quantity := 10,
       unit_of_measure := str "EA", description := none,
       image_url := none } : NewWoodPlank).generate_sku :=
  (C7_sku_pure _ _ rfl).2 rfl rfl rfl rfl rfl rfl

end HeartEco

namespace HeartEco

/-- C4 counterexample: `" PALLETS"` equals the canonical header `"PALLETS"`
up to letter case and surrounding whitespace, yet `identify_section` applied
to it returns `none` (the classifier uppercases but never trims; trimming is
done by the pipeline before the classifier is called). -/
theorem C4_counterexample :
    upperChars (trimChars (str " PALLETS")) ∈ specHeaders PriceListSection.Pallets ∧
    identify_section (str " PALLETS") = none :=
  ⟨List.mem_singleton.mpr rfl, rfl⟩

/-- C4 amended: `identify_section` returns a Section exactly for the strings
whose uppercasing equals one of the thirteen canonical headers — letter case
is normalized but surrounding whitespace is not (the pipeline trims each line
before classification); both `INT/EXTERIOR PLYWOOD` and `INTERIOR PLYWOOD`
map to Plywood, and every other string maps to `none`. -/
theorem C4_classifier_exact (s : List Char) (sec : PriceListSection) :
    identify_section s = some sec ↔ upperChars s ∈ specHeaders sec := by
  constructor
  · intro h
    unfold identify_section at h
    by_cases h1 : upperChars s = str "HEAVY DUTY WOODEN BOXES"
    · rw [if_pos h1, Option.some.injEq] at h; subst h; rw [h1]; simp [specHeaders]
    rw [if_neg h1] at h
    by_cases h2 : upperChars s = str "PALLETS"
    · rw [if_pos h2, Option.some.injEq] at h; subst h; rw [h2]; simp [specHeaders]
    rw [if_neg h2] at h
    by_cases h3 : upperChars s = str "A GRADE LONG TIMBERS"
    · rw [if_pos h3, Option.some.injEq] at h; subst h; rw [h3]; simp [specHeaders]
    rw [if_neg h3] at h
    by_cases h4 : upperChars s = str "B GRADE LONG TIMBERS"
    · rw [if_pos h4, Option.some.injEq] at h; subst h; rw [h4]; simp [specHeaders]
    rw [if_neg h4] at h
    by_cases h5 : upperChars s = str "A GRADE SHORT TIMBERS"
    · rw [if_pos h5, Option.some.injEq] at h; subst h; rw [h5]; simp [specHeaders]
    rw [if_neg h5] at h
    by_cases h6 : upperChars s = str "B GRADE SHORT TIMBERS"
    · rw [if_pos h6, Option.some.injEq] at h; subst h; rw [h6]; simp [specHeaders]
    rw [if_neg h6] at h
    by_cases h7 : upperChars s = str "PLANED BOTH SIDES"
    · rw [if_pos h7, Option.some.injEq] at h; subst h; rw [h7]; simp [specHeaders]
    rw [if_neg h7] at h
    by_cases h8 : upperChars s = str "PLANED ALL ROUND"
    · rw [if_pos h8, Option.some.injEq] at h; subst h; rw [h8]; simp [specHeaders]
    rw [if_neg h8] at h
    by_cases h9 : upperChars s = str "MACHINED TIMBERS"
    · rw [if_pos h9, Option.some.injEq] at h; subst h; rw [h9]; simp [specHeaders]
    rw [if_neg h9] at h
    by_cases h10 : upperChars s = str "SHORT BALTIC COMPONENTS"
    · rw [if_pos h10, Option.some.injEq] at h; subst h; rw [h10]; simp [specHeaders]
    rw [if_neg h10] at h
    by_cases h11 : upperChars s = str "LAMINATED BALTIC TABLE AND SHELVES TO ORDER"
    · rw [if_pos h11, Option.some.injEq] at h; subst h; rw [h11]; simp [specHeaders]
    rw [if_neg h11] at h
    by_cases h12 : upperChars s = str "INT/EXTERIOR PLYWOOD" ∨ upperChars s = str "INTERIOR PLYWOOD"
    · rw [if_pos h12, Option.some.injEq] at h; subst h
      rcases h12 with h12 | h12 <;> rw [h12] <;> simp [specHeaders]
    rw [if_neg h12] at h
    exact absurd h (by simp)
  · intro h
    cases sec
    case None => simp [specHeaders] at h
    case Plywood =>
      simp only [specHeaders, List.mem_cons, List.mem_singleton, List.not_mem_nil, or_false] at h
      unfold identify_section
      rcases h with h | h <;> rw [h] <;> rfl
    all_goals
      simp only [specHeaders, List.mem_cons, List.mem_singleton, List.not_mem_nil, or_false] at h
    all_goals unfold identify_section
    all_goals rw [h]
    all_goals rfl

/-- Witness for the amended C4 at a concrete lowercase header. -/
theorem C4_classifier_exact_witness :
    identify_section (str "pallets") = some PriceListSection.Pallets :=
  (C4_classifier_exact (str "pallets") PriceListSection.Pallets).mpr
    (List.mem_singleton.mpr rfl)

end HeartEco

namespace HeartEco

/-- A token list with no price token makes the tail-first scan fail. -/
theorem firstPrice_none (l : List (List Char)) (h : ∀ t ∈ l, priceOfToken t = none) :
    firstPrice l = none := by
  induction l with
  | nil => rfl
  | cons t ts ih =>
    unfold firstPrice
    rw [h t (List.mem_cons_self t ts)]
    exact ih (fun x hx => h x (List.mem_cons_of_mem t hx))

/-- Function `extract_price` fails when no token is an `R<i32>` token. -/
theorem extract_price_none (parts : List (List Char))
    (h : ∀ t ∈ parts, priceOfToken t = none) : extract_price parts = none := by
  unfold extract_price
  cases hl : parts.getLast? with
  | none => exact firstPrice_none _ (fun t ht => h t (List.mem_reverse.mp ht))
  | some last =>
    dsimp only
    rw [h last (List.mem_of_mem_getLast? hl)]
    exact firstPrice_none _ (fun t ht => h t (List.mem_reverse.mp ht))

/-- C5: for every section, a line with fewer than 7 whitespace-separated
tokens, or whose tokens at positions 0, 2, 4 do not all parse as `i32`, or
with no token of the form `R<i32>`, is rejected by `parse_product_line`
(`none`, never a partial record). -/
theorem C5_reject (sec : PriceListSection) (line : List Char)
    (h : (splitWhitespace line).length < 7 ∨
      (parseI32 ((splitWhitespace line).getD 0 []) = none ∨
       parseI32 ((splitWhitespace line).getD 2 []) = none ∨
       parseI32 ((splitWhitespace line).getD 4 []) = none) ∨
      (∀ t ∈ splitWhitespace line, priceOfToken t = none)) :
    parse_product_line line sec = none := by
  unfold parse_product_line
  by_cases hx : ¬('X' ∈ line) ∧ ¬('x' ∈ line)
  · rw [if_pos hx]
  rw [if_neg hx]
  by_cases hlen : 7 ≤ (splitWhitespace line).length
  case neg => rw [if_neg hlen]
  rw [if_pos hlen]
  rcases h with hl | hdim | hprice
  · omega
  · rcases he0 : parseI32 ((splitWhitespace line).getD 0 []) with _ | t0
    · rfl
    rcases he2 : parseI32 ((splitWhitespace line).getD 2 []) with _ | t2
    · rfl
    rcases he4 : parseI32 ((splitWhitespace line).getD 4 []) with _ | t4
    · rfl
    rcases hdim with h0 | h2 | h4
    · rw [he0] at h0; cases h0
    · rw [he2] at h2; cases h2
    · rw [he4] at h4; cases h4
  · rcases he0 : parseI32 ((splitWhitespace line).getD 0 []) with _ | t0
    · rfl
    rcases he2 : parseI32 ((splitWhitespace line).getD 2 []) with _ | t2
    · rfl
    rcases he4 : parseI32 ((splitWhitespace line).getD 4 []) with _ | t4
    · rfl
    rw [extract_price_none _ hprice]

/-- Witness for C5 at a concrete 3-token line. -/
theorem C5_reject_witness :
    parse_product_line (str "1 X 2") PriceListSection.Pallets = none :=
  C5_reject PriceListSection.Pallets (str "1 X 2") (Or.inl (by decide))

end HeartEco

namespace HeartEco

/-- C8: every pipeline step only appends to the output (so the output
preserves the order of appearance of product lines), and a trimmed non-empty
line that is not a recognized header leaves the current section unchanged;
when no section is active such a line emits nothing. -/
theorem C8_nonheader (st : PriceListSection × List NewWoodPlank) (line : List Char) :
    (∃ emitted, (processLine st line).2 = st.2 ++ emitted) ∧
    (trimChars line ≠ [] → identify_section (trimChars line) = none →
      (processLine st line).1 = st.1 ∧
      (st.1 = PriceListSection.None → (processLine st line).2 = st.2)) := by
  unfold processLine
  by_cases he : trimChars line = []
  · rw [if_pos he]
    exact ⟨⟨[], by simp⟩, fun hne _ => absurd he hne⟩
  rw [if_neg he]
  cases hsec : identify_section (trimChars line) with
  | some sec =>
    dsimp only
    exact ⟨⟨[], by simp⟩, fun _ hn => by simp [hsec] at hn⟩
  | none =>
    dsimp only
    by_cases hst : st.1 ≠ PriceListSection.None
    · rw [if_pos hst]
      cases hp : parse_product_line (trimChars line) st.1 with
      | some product =>
        exact ⟨⟨[product], rfl⟩, fun _ _ => ⟨rfl, fun hn => absurd hn hst⟩⟩
      | none =>
        exact ⟨⟨[], by simp⟩, fun _ _ => ⟨rfl, fun _ => rfl⟩⟩
    · rw [if_neg hst]
      exact ⟨⟨[], by simp⟩, fun _ _ => ⟨rfl, fun _ => rfl⟩⟩

/-- Witness for C8: the unrecognized header-like line `"UNKNOWN SECTION"`
leaves the initial state untouched and emits nothing. -/
theorem C8_nonheader_witness :
    (processLine (PriceListSection.None, []) (str "UNKNOWN SECTION")).1 =
      PriceListSection.None ∧
    (processLine (PriceListSection.None, []) (str "UNKNOWN SECTION")).2 =
      ([] : List NewWoodPlank) :=
  let h := (C8_nonheader (PriceListSection.None, []) (str "UNKNOWN SECTION")).2
    (by decide) (by rfl)
  ⟨h.1, h.2 rfl⟩

end HeartEco

namespace HeartEco

/-- C2: in `seed_database`, validation happens strictly before the INSERT:
for every store-error schedule, initial store and product batch, every record
in the INSERT trace has positive dimensions, positive price and non-negative
stock; in particular a record with `length_mm = 0` is never inserted. -/
theorem C2_validate_before_insert (env : ErrSchedule) (store : List (List Char))
    (products : List NewWoodPlank) :
    ∀ p ∈ (seedDatabase env store products).inserted,
      0 < p.thickness_mm ∧ 0 < p.width_mm ∧ 0 < p.length_mm ∧
        0 < p.price ∧ 0 ≤ p.stock_quantity := by
  induction products generalizing env store with
  | nil => intro p hp; simp [seedDatabase] at hp
  | cons q rest ih =>
    intro p hp
    simp only [seedDatabase] at hp
    split_ifs at hp with h1 h2 h3 h4
    · simp at hp
    · exact ih _ _ p hp
    · simp at hp
    · rcases List.mem_cons.mp hp with hq | hmem
      · subst hq
        exact validOk_pos _ h3
      · exact ih _ _ p hmem
    · exact ih _ _ p hp

/-- Witness for C2 on a concrete one-record batch whose record is inserted. -/
theorem C2_validate_before_insert_witness :
    0 < ({ sku := str "PAL-S-1x2x3", name := str "n",
           category := ProductCategory.Pallet, wood_type := WoodType.Pine,
           grade := ProductGrade.Standard, finish := FinishType.Rough,
           thickness_mm := 1, width_mm := 2, length_mm := 3, price := 4,
           stock_quantity := 0, unit_of_measure := str "EA",
           description := none, image_url := none } : NewWoodPlank).length_mm :=
  (C2_validate_before_insert [] []
    [{ sku := [], name := str "n",
       category := ProductCategory.Pallet, wood_type := WoodType.Pine,
       grade := ProductGrade.Standard, finish := FinishType.Rough,
       thickness_mm := 1, width_mm := 2, length_mm := 3, price := 4,
       stock_quantity := 0, unit_of_measure := str "EA",
       description := none, image_url := none }]
    _ (by decide)).2.2.1

end HeartEco

namespace HeartEco

/-- C9: the batch driver always runs to completion — every record increments
exactly one of the two counters, so success + failure equals the batch
length for every error schedule — and when the existence check fails with a
store error on a (valid) record, the driver counts one failure, performs no
insert for it, and processes the remaining records exactly as it would have
without that record. -/
theorem C9_store_error_nonfatal :
    (∀ (env : ErrSchedule) (store : List (List Char)) (products : List NewWoodPlank),
      (runSeed env store products).success + (runSeed env store products).failure
        = products.length) ∧
    (∀ (env : ErrSchedule) (store : List (List Char)) (p : NewWoodPlank)
        (rest : List NewWoodPlank), p.validOk = true →
      runSeed ((true, false) :: env) store (p :: rest) =
        { runSeed env store rest with
            failure := (runSeed env store rest).failure + 1 }) := by
  constructor
  · intro env store products
    induction products generalizing env store with
    | nil => rfl
    | cons q rest ih =>
      simp only [runSeed]
      split_ifs with h1 h2 h3 h4
      · have h := ih env.tail store
        dsimp only
        simp only [List.length_cons]
        omega
      · have h := ih env.tail store
        dsimp only
        simp only [List.length_cons]
        omega
      · have h := ih env.tail store
        dsimp only
        simp only [List.length_cons]
        omega
      · have h := ih env.tail (store ++ [skuOf q])
        dsimp only
        simp only [List.length_cons]
        omega
      · have h := ih env.tail store
        dsimp only
        simp only [List.length_cons]
        omega
  · intro env store p rest hv
    simp only [runSeed, List.headD, List.tail]
    rw [if_neg (fun hc => hc hv)]
    rfl

/-- Witness for C9: a one-record batch whose existence check errors ends
with zero successes, one failure, an unchanged store and no inserts. -/
theorem C9_store_error_nonfatal_witness :
    runSeed [(true, false)] []
      [{ sku := [], name := str "n",
         category := ProductCategory.Pallet, wood_type := WoodType.Pine,
         grade := ProductGrade.Standard, finish := FinishType.Rough,
         thickness_mm := 1, width_mm := 2, length_mm := 3, price := 4,
         stock_quantity := 0, unit_of_measure := str "EA",
         description := none, image_url := none }] =
    ⟨0, 1, [], []⟩ := by
  rw [C9_store_error_nonfatal.2 [] [] _ [] (by decide)]
  rfl

end HeartEco

namespace HeartEco

/-- A successful `parseI32` result lies in the i32 range. -/
theorem parseI32_range (s : List Char) (v : Int) (h : parseI32 s = some v) :
    -(2 ^ 31) ≤ v ∧ v ≤ 2 ^ 31 - 1 := by
  unfold parseI32 at h
  split at h <;>
    (try dsimp only at h
     split at h
     · cases h
     · split at h
       · cases h
       · try dsimp only at h
         split_ifs at h with hr
         injection h with h
         subst h
         exact hr)

/-- A price token value comes from `parseI32`, so it is in i32 range. -/
theorem priceOfToken_range (t : List Char) (v : Int) (h : priceOfToken t = some v) :
    -(2 ^ 31) ≤ v ∧ v ≤ 2 ^ 31 - 1 := by
  unfold priceOfToken at h
  split at h
  · exact parseI32_range _ _ h
  · cases h

/-- Any value produced by the tail-first price scan is in i32 range. -/
theorem firstPrice_range (l : List (List Char)) (v : Int) (h : firstPrice l = some v) :
    -(2 ^ 31) ≤ v ∧ v ≤ 2 ^ 31 - 1 := by
  induction l with
  | nil => cases h
  | cons t ts ih =>
    unfold firstPrice at h
    split at h
    · injection h with h
      subst h
      next heq => exact priceOfToken_range _ _ heq
    · exact ih h

/-- Any value produced by `extract_price` is in i32 range. -/
theorem extract_price_range (parts : List (List Char)) (v : Int)
    (h : extract_price parts = some v) : -(2 ^ 31) ≤ v ∧ v ≤ 2 ^ 31 - 1 := by
  unfold extract_price at h
  split at h
  · try dsimp only at h
    split at h
    · injection h with h
      subst h
      next heq => exact priceOfToken_range _ _ heq
    · exact firstPrice_range _ _ h
  · exact firstPrice_range _ _ h

/-- Every price on a record produced by `parse_product_line` is the exact
integer value of an `R<i32>` token, hence in i32 range. -/
theorem parse_price_i32 (line : List Char) (sec : PriceListSection) (p : NewWoodPlank)
    (h : parse_product_line line sec = some p) :
    -(2 ^ 31) ≤ p.price ∧ p.price ≤ 2 ^ 31 - 1 := by
  unfold parse_product_line at h
  by_cases hx : ¬('X' ∈ line) ∧ ¬('x' ∈ line)
  · rw [if_pos hx] at h
    cases h
  rw [if_neg hx] at h
  by_cases hlen : 7 ≤ (splitWhitespace line).length
  case neg =>
    rw [if_neg hlen] at h
    cases h
  rw [if_pos hlen] at h
  split at h
  · try dsimp only at h
    split at h
    · next price heq =>
      injection h with h
      subst h
      exact extract_price_range _ _ heq
    · cases h
  · cases h

/-- C10: the parser enforces no range constraints — a line with a negative
dimension token and price token `R0` yields, under an active section, a
candidate record with a negative thickness and zero price that `validate`
rejects — while every parsed price is the exact whole-number value of an
i32-parsed token; positivity is imposed only by `validate`. -/
theorem C10_no_range_enforcement :
    (∃ p : NewWoodPlank,
      parse_product_line (str "-23 X 100 X 2500 BALTIC EA R0")
          PriceListSection.Pallets = some p ∧
      p.thickness_mm = -23 ∧ p.price = 0 ∧ p.validOk = false) ∧
    (∀ (line : List Char) (sec : PriceListSection) (p : NewWoodPlank),
      parse_product_line line sec = some p →
      -(2 ^ 31) ≤ p.price ∧ p.price ≤ 2 ^ 31 - 1) :=
  ⟨⟨_, rfl, rfl, rfl, rfl⟩, fun line sec p h => parse_price_i32 line sec p h⟩

/-- Witness for the universally quantified part of C10 at the concrete line. -/
theorem C10_no_range_enforcement_witness :
    -(2 ^ 31) ≤ ({ sku := [], name := str "-23 x 100 x 2500 Baltic",
                   category := ProductCategory.Pallet, wood_type := WoodType.Baltic,
                   grade := ProductGrade.Standard, finish := FinishType.Rough,
                   thickness_mm := -23, width_mm := 100, length_mm := 2500, price := 0,
                   stock_quantity := 10, unit_of_measure := str "EA",
                   description := some (str "-23 X 100 X 2500 BALTIC EA R0"),
                   image_url := none } : NewWoodPlank).price ∧
    ({ sku := [], name := str "-23 x 100 x 2500 Baltic",
       category := ProductCategory.Pallet, wood_type := WoodType.Baltic,
       grade := ProductGrade.Standard, finish := FinishType.Rough,
       thickness_mm := -23, width_mm := 100, length_mm := 2500, price := 0,
       stock_quantity := 10, unit_of_measure := str "EA",
       description := some (str "-23 X 100 X 2500 BALTIC EA R0"),
       image_url := none } : NewWoodPlank).price ≤ 2 ^ 31 - 1 :=
  C10_no_range_enforcement.2 (str "-23 X 100 X 2500 BALTIC EA R0")
    PriceListSection.Pallets _ rfl

end HeartEco

namespace HeartEco

/-- The driver only ever adds SKUs to the store. -/
theorem runSeed_store_mono (env : ErrSchedule) (store : List (List Char))
    (ps : List NewWoodPlank) (s : List Char) (hs : s ∈ store) :
    s ∈ (runSeed env store ps).store := by
  induction ps generalizing env store with
  | nil => exact hs
  | cons q rest ih =>
    simp only [runSeed]
    split_ifs <;>
      first
      | exact ih _ _ hs
      | exact ih _ _ (List.mem_append_left _ hs)

/-- After an error-free run, the SKU of every valid batch record is in the
store: it either already existed or was inserted. -/
theorem runSeed_valid_sku_in_store (store : List (List Char)) (ps : List NewWoodPlank)
    (p : NewWoodPlank) (hp : p ∈ ps) (hv : p.validOk = true) :
    skuOf p ∈ (runSeed [] store ps).store := by
  induction ps generalizing store with
  | nil => cases hp
  | cons q rest ih =>
    rcases List.mem_cons.mp hp with rfl | hmem
    · simp only [runSeed]
      split_ifs
      all_goals
        first
        | exact runSeed_store_mono _ _ _ _ (by assumption)
        | exact runSeed_store_mono _ _ _ _ (List.mem_append_right _ (List.mem_singleton.mpr rfl))
        | simp_all
    · simp only [runSeed]
      split_ifs <;> exact ih _ hmem

/-- An error-free run over a batch whose valid records all have their SKUs
in the store already performs no insert, counts every valid record as a
success and every invalid one as a failure, and leaves the store unchanged. -/
theorem runSeed_all_exist (store : List (List Char)) (ps : List NewWoodPlank)
    (hall : ∀ p ∈ ps, p.validOk = true → skuOf p ∈ store) :
    runSeed [] store ps =
      ⟨(ps.filter (fun p => p.validOk)).length,
       (ps.filter (fun p => ¬ p.validOk)).length, store, []⟩ := by
  induction ps with
  | nil => rfl
  | cons q rest ih =>
    have hrest : ∀ p ∈ rest, p.validOk = true → skuOf p ∈ store :=
      fun p hp hv => hall p (List.mem_cons_of_mem _ hp) hv
    by_cases hv : q.validOk = true
    · have hq := hall q (List.mem_cons_self _ _) hv
      simp only [runSeed, List.headD, List.tail]
      rw [if_neg (fun hc => hc hv), if_neg Bool.false_ne_true, if_pos hq, ih hrest]
      simp [List.filter_cons, hv]
    · simp only [runSeed, List.headD, List.tail]
      rw [if_pos hv, ih hrest]
      simp [List.filter_cons, hv]

/-- C1: running the driver a second time over the same parsed price list
against the store left by an error-free first run performs zero inserts, and
its success count equals the number of valid records in the input. -/
theorem C1_idempotent (lines : List (List Char)) (store0 : List (List Char)) :
    (runSeed [] (runSeed [] store0 (parse_price_list lines)).store
        (parse_price_list lines)).inserted = [] ∧
    (runSeed [] (runSeed [] store0 (parse_price_list lines)).store
        (parse_price_list lines)).success =
      ((parse_price_list lines).filter (fun p => p.validOk)).length := by
  have hall : ∀ p ∈ parse_price_list lines, p.validOk = true →
      skuOf p ∈ (runSeed [] store0 (parse_price_list lines)).store :=
    fun p hp hv => runSeed_valid_sku_in_store _ _ _ hp hv
  rw [runSeed_all_exist _ _ hall]
  exact ⟨rfl, rfl⟩

end HeartEco
